import Mathlib

/-!
Verification of the field-mapping core ("Map My Field").

Shallow embedding of the polygon-editing logic found in
`src/app/components/map/hooks/useMapLogic.ts` (three iterations of the same
hook, called V1/V2/V3 below in source order) and
`src/app/components/map/MapComponent.tsx`.

Modelling conventions:
* JS `number` is modelled as `ℚ` (exact real-valued arithmetic).  Where IEEE-754
  special values (Infinity, NaN) are essential — the division by a zero edge
  length in `adjustLineLength` — a dedicated value type `FP` with IEEE-like
  special-value propagation is used instead.
* The injected Google geodesic provider
  (`google.maps.geometry.spherical.computeDistanceBetween` / `computeArea`)
  is an external capability; functions that call it take the provider as an
  explicit argument (`Dist` / `AreaFn`).
* React `useState` slots become fields of a `MapState` record; a handler
  becomes a pure function `MapState → MapState`.  `localStorage` under the
  fixed key `savedFields` is modelled by the `storage` field (`none` = key
  absent).
* JS arrays: `xs[i] = v` on a copy is `List.set` (the out-of-bounds
  sparse-array case of JS never arises at the indices used here);
  `xs.splice(i, 0, v)` is `List.insertIdx i v` (both clamp/no-op differences
  are outside the in-bounds hypotheses used).
-/

namespace FieldMap

/-- `PolygonPoint` from `types.ts`: a latitude/longitude pair. -/
structure PolygonPoint where
  lat : ℚ
  lng : ℚ
deriving DecidableEq, Repr, Inhabited

/-- One per-edge measurement record `\x7b length, width \x7d`; `width` is always 0. -/
structure Measurement where
  length : ℚ
  width : ℚ
deriving DecidableEq, Repr, Inhabited

/-- `Field` from `types.ts`: id, points, derived area/perimeter/measurements. -/
structure Field where
  id : String
  points : List PolygonPoint
  area : ℚ
  perimeter : ℚ
  measurements : List Measurement
deriving DecidableEq, Repr, Inhabited

/-- The geodesic distance capability `computeDistanceBetween`. -/
abbrev Dist := PolygonPoint → PolygonPoint → ℚ

/-- The spherical polygon-area capability `computeArea`. -/
abbrev AreaFn := List PolygonPoint → ℚ

/-- `calculateArea` (useMapLogic V1 lines 176-181, identical in V2/V3):
returns 0 for fewer than 3 points, otherwise the provider's square-meter
area divided by 10000 (hectares). -/
def calculateArea (polygonArea : AreaFn) (polygonPoints : List PolygonPoint) : ℚ :=
  if polygonPoints.length < 3 then 0
  else polygonArea polygonPoints / 10000

/-- Result of `calculatePerimeter`. -/
structure PerimeterResult where
  totalDistance : ℚ
  lineMeasurements : List Measurement
deriving DecidableEq, Repr

/-- `calculatePerimeter` (useMapLogic V1 lines 184-203, identical in V2/V3):
`(0, [])` for fewer than 2 points; otherwise one distance per index `i`
between `points[i]` and `points[(i+1) % n]`, accumulated into the total. -/
def calculatePerimeter (dist : Dist) (polygonPoints : List PolygonPoint) : PerimeterResult :=
  if polygonPoints.length < 2 then ⟨0, []⟩
  else
    let ds := (List.range polygonPoints.length).map fun i =>
      dist (polygonPoints.getD i default)
        (polygonPoints.getD ((i + 1) % polygonPoints.length) default)
    ⟨ds.sum, ds.map fun d => ⟨d, 0⟩⟩

/-- `calculateMidpoint`: arithmetic mean of lat and lng. -/
def calculateMidpoint (point1 point2 : PolygonPoint) : PolygonPoint :=
  ⟨(point1.lat + point2.lat) / 2, (point1.lng + point2.lng) / 2⟩

/-- `adjustLineLength` (useMapLogic V1 lines 279-307, identical in V2/V3),
idealized real-number semantics: rescale the edge's second endpoint along the
vector from the first endpoint so that the edge measures `newLength`.  The
source has no zero-length guard; this `ℚ` model is faithful exactly on inputs
whose current edge length is nonzero (see `FP` below for the zero case). -/
def adjustLineLength (dist : Dist) (points : List PolygonPoint) (index : Nat)
    (newLength : ℚ) : List PolygonPoint :=
  let point1 := points.getD index default
  let point2 := points.getD ((index + 1) % points.length) default
  let currentLength := dist point1 point2
  let scale := newLength / currentLength
  let dx := point2.lng - point1.lng
  let dy := point2.lat - point1.lat
  let newPoint2 : PolygonPoint := ⟨point1.lat + dy * scale, point1.lng + dx * scale⟩
  points.set ((index + 1) % points.length) newPoint2

/-- A positively homogeneous planar distance provider: scaling the
displacement from `p` by `t ≥ 0` scales the distance by `t`.  This is the
small-scale behavior of the geodesic provider (exact for flat metrics), and is
what makes "re-measured length equals the requested length" hold exactly
rather than within floating tolerance. -/
def PosHomogeneous (dist : Dist) : Prop :=
  ∀ (p : PolygonPoint) (dlat dlng t : ℚ), 0 ≤ t →
    dist p ⟨p.lat + t * dlat, p.lng + t * dlng⟩ =
      t * dist p ⟨p.lat + dlat, p.lng + dlng⟩

/-- Kernel-computable absolute value on `ℚ` (used by the concrete witness
provider; equal to `|q|`). -/
def qabs (q : ℚ) : ℚ := if q < 0 then -q else q

/-- Concrete homogeneous provider used for witnesses: taxicab distance. -/
def taxicab : Dist := fun p q => qabs (q.lat - p.lat) + qabs (q.lng - p.lng)

/-! ## IEEE-754-style value model

The `ℚ` model above cannot express what the JS code does when the current
edge length is 0: `newLength / 0` is `Infinity` and `0 * Infinity` is `NaN`
in IEEE-754 doubles, while `ℚ` division by zero is 0.  `FP` models a double
as either an exact finite value, a signed infinity, or NaN, with the IEEE
special-value propagation rules (finite arithmetic is kept exact — rounding
and overflow play no role in the claims). -/

/-- A JS `number`: finite (exact value), `inf true` = +Infinity,
`inf false` = -Infinity, or NaN. -/
inductive FP where
  | fin : ℚ → FP
  | inf : Bool → FP
  | nan : FP
deriving DecidableEq, Repr, Inhabited

/-- IEEE negation. -/
def FP.neg : FP → FP
  | fin q => fin (-q)
  | inf s => inf (!s)
  | nan => nan

/-- IEEE addition: NaN propagates, opposite infinities give NaN. -/
def FP.add : FP → FP → FP
  | nan, _ => nan
  | _, nan => nan
  | inf s, inf t => if s = t then inf s else nan
  | inf s, fin _ => inf s
  | fin _, inf t => inf t
  | fin a, fin b => fin (a + b)

/-- IEEE subtraction. -/
def FP.sub (x y : FP) : FP := x.add y.neg

/-- IEEE multiplication: NaN propagates, `0 * Infinity = NaN`. -/
def FP.mul : FP → FP → FP
  | nan, _ => nan
  | _, nan => nan
  | inf s, inf t => inf (s == t)
  | inf s, fin a => if a = 0 then nan else if 0 < a then inf s else inf (!s)
  | fin a, inf s => if a = 0 then nan else if 0 < a then inf s else inf (!s)
  | fin a, fin b => fin (a * b)

/-- IEEE division: NaN propagates, `x / 0` is a signed infinity for
nonzero finite `x` and NaN for `x = 0`, finite over infinite is 0. -/
def FP.div : FP → FP → FP
  | nan, _ => nan
  | _, nan => nan
  | inf _, inf _ => nan
  | inf s, fin b => if 0 ≤ b then inf s else inf (!s)
  | fin _, inf _ => fin 0
  | fin a, fin b =>
      if b = 0 then (if a = 0 then nan else if 0 < a then inf true else inf false)
      else fin (a / b)

/-- IEEE absolute value (for the witness provider). -/
def FP.abs : FP → FP
  | fin q => fin (qabs q)
  | inf _ => inf true
  | nan => nan

/-- A point whose coordinates are IEEE-style values. -/
structure FPPoint where
  lat : FP
  lng : FP
deriving DecidableEq, Repr, Inhabited

/-- Geodesic distance capability over IEEE-style values. -/
abbrev DistFP := FPPoint → FPPoint → FP

/-- Taxicab distance over IEEE-style values (witness provider; in particular
it returns exactly 0 on coinciding finite points). -/
def taxicabFP : DistFP := fun p q =>
  ((q.lat.sub p.lat).abs).add ((q.lng.sub p.lng).abs)

/-- `adjustLineLength` again, this time over the IEEE-style value model —
the same sequence of operations as the source (which has no guard on
`currentLength` being 0): `scale = newLength / currentLength`, then
`newPoint2 = point1 + (delta) * scale`, written back at `(index+1) % n`. -/
def adjustLineLengthFP (dist : DistFP) (points : List FPPoint) (index : Nat)
    (newLength : FP) : List FPPoint :=
  let point1 := points.getD index default
  let point2 := points.getD ((index + 1) % points.length) default
  let currentLength := dist point1 point2
  let scale := newLength.div currentLength
  let dx := point2.lng.sub point1.lng
  let dy := point2.lat.sub point1.lat
  let newPoint2 : FPPoint := ⟨point1.lat.add (dy.mul scale), point1.lng.add (dx.mul scale)⟩
  points.set ((index + 1) % points.length) newPoint2

/-! ## State model

One record gathering the `useState` slots and refs the verified handlers
touch.  `history`/`historyIndex` start life as `[]`/`-1` in the source but an
initialization effect immediately pushes the initial state and sets the index
to 0, so the index is modelled as `Nat`.  `storage` models the content stored
under the fixed `localStorage` key `savedFields` (`none` = key absent). -/

/-- One history entry: an immutable snapshot of `(fields, currentField)`. -/
structure HistoryState where
  fields : List Field
  currentField : Option Field
deriving DecidableEq, Repr, Inhabited

/-- The hook state (the slots relevant to the verified handlers). -/
structure MapState where
  isDrawing : Bool
  fields : List Field
  currentField : Option Field
  tempPoints : List PolygonPoint
  selectedPoint : Option Nat
  selectedFieldId : Option String
  hoveredPoint : Option (Nat ⊕ String)
  isMovingPoint : Bool
  isMovingRef : Bool
  history : List HistoryState
  historyIndex : Nat
  shouldSaveToHistory : Bool
  storage : Option (List Field)
deriving DecidableEq, Repr, Inhabited

/-- `clearSavedFields` (useMapLogic V1 lines 87-95, identical in V2/V3):
`localStorage.removeItem(STORAGE_KEY)` then `setFields([])`.  It touches
nothing else — in particular neither `currentField` nor `isDrawing`. -/
def clearSavedFields (st : MapState) : MapState :=
  { st with storage := none, fields := [] }

/-- `handleMarkerDrag` of V1 (useMapLogic lines 319-360): when a move is
active (`isMovingRef`), write the dragged position into `tempPoints` AND
immediately into the committed store — the matching committed field when a
`fieldId` is given, else the current field. -/
def handleMarkerDragV1 (st : MapState) (index : Nat) (newPoint : PolygonPoint)
    (fieldId : Option String) : MapState :=
  if st.isMovingRef then
    let newTempPoints := st.tempPoints.set index newPoint
    match fieldId with
    | some fid =>
      { st with
        tempPoints := newTempPoints,
        fields :=
          match st.fields.find? (fun f : Field => f.id == fid) with
          | none => st.fields
          | some _ => st.fields.map fun f =>
              if f.id = fid then { f with points := newTempPoints } else f }
    | none =>
      match st.currentField with
      | some cf =>
        { st with tempPoints := newTempPoints,
                  currentField := some { cf with points := newTempPoints } }
      | none => { st with tempPoints := newTempPoints }
  else st

/-- `handleMarkerDrag` of V2 (useMapLogic lines 899-949): looks up the live
points of the target, writes the dragged position at `index`, stores the
result in `tempPoints` and immediately writes it (with freshly recomputed
area/perimeter/measurements) into the committed store, flagging a history
save.  (The JS sparse-array case `index ≥ length` never arises at the
in-bounds indices used here.) -/
def handleMarkerDragV2 (dist : Dist) (polygonArea : AreaFn) (st : MapState)
    (index : Nat) (newPoint : PolygonPoint) (fieldId : Option String) : MapState :=
  let currentPoints :=
    match fieldId with
    | some fid => ((st.fields.find? (fun f : Field => f.id == fid)).map Field.points).getD []
    | none => (st.currentField.map Field.points).getD []
  let newPoints := currentPoints.set index newPoint
  match fieldId with
  | some fid =>
    { st with
      tempPoints := newPoints,
      fields := st.fields.map fun f =>
        if f.id = fid then
          { f with points := newPoints,
                   area := calculateArea polygonArea newPoints,
                   perimeter := (calculatePerimeter dist newPoints).totalDistance,
                   measurements := (calculatePerimeter dist newPoints).lineMeasurements }
        else f,
      shouldSaveToHistory := true }
  | none =>
    match st.currentField with
    | some cf =>
      { st with
        tempPoints := newPoints,
        currentField := some
          { cf with points := newPoints,
                    area := calculateArea polygonArea newPoints,
                    perimeter := (calculatePerimeter dist newPoints).totalDistance,
                    measurements := (calculatePerimeter dist newPoints).lineMeasurements },
        shouldSaveToHistory := true }
    | none => { st with tempPoints := newPoints }

/-- `saveToHistory` (useMapLogic V1 lines 98-111, identical in V2/V3): if a
save is pending, truncate any redo entries (`slice(0, historyIndex + 1)`),
append the current `(fields, currentField)` snapshot and advance the
cursor. -/
def saveToHistory (st : MapState) : MapState :=
  if st.shouldSaveToHistory then
    { st with
      history := st.history.take (st.historyIndex + 1) ++ [⟨st.fields, st.currentField⟩],
      historyIndex := st.historyIndex + 1,
      shouldSaveToHistory := false }
  else st

/-- `undo` (useMapLogic V1 lines 114-129): if the cursor is positive, restore
the previous entry, step the cursor back and reset the transient
selection/drag state. -/
def undo (st : MapState) : MapState :=
  if 0 < st.historyIndex then
    let previousState := st.history.getD (st.historyIndex - 1) default
    { st with
      fields := previousState.fields,
      currentField := previousState.currentField,
      historyIndex := st.historyIndex - 1,
      shouldSaveToHistory := false,
      tempPoints := [], selectedPoint := none, selectedFieldId := none,
      isMovingPoint := false, hoveredPoint := none }
  else st

/-- `redo` (useMapLogic V1 lines 132-147): symmetric to `undo`, advancing the
cursor while it is strictly before the last entry. -/
def redo (st : MapState) : MapState :=
  if st.historyIndex + 1 < st.history.length then
    let nextState := st.history.getD (st.historyIndex + 1) default
    { st with
      fields := nextState.fields,
      currentField := nextState.currentField,
      historyIndex := st.historyIndex + 1,
      shouldSaveToHistory := false,
      tempPoints := [], selectedPoint := none, selectedFieldId := none,
      isMovingPoint := false, hoveredPoint := none }
  else st

/-- `handleMidpointDrag` of useMapLogic V2 (lines 742-791): splice the new
point into the target's live point list directly after `index`, write it back
with freshly recomputed area/perimeter/measurements, and flag a history
save.  (`updateMidpoints` only feeds the render layer and is not part of the
store state.) -/
def handleMidpointDragL (dist : Dist) (polygonArea : AreaFn) (st : MapState)
    (index : Nat) (newPoint : PolygonPoint) (fieldId : Option String) : MapState :=
  let pointsOpt :=
    match fieldId with
    | some fid => (st.fields.find? (fun f : Field => f.id == fid)).map Field.points
    | none => st.currentField.map Field.points
  match pointsOpt with
  | none => st
  | some points =>
    let newPoints := points.insertIdx (index + 1) newPoint
    match fieldId with
    | some fid =>
      { st with
        fields := st.fields.map fun f =>
          if f.id = fid then
            { f with points := newPoints,
                     area := calculateArea polygonArea newPoints,
                     perimeter := (calculatePerimeter dist newPoints).totalDistance,
                     measurements := (calculatePerimeter dist newPoints).lineMeasurements }
          else f,
        shouldSaveToHistory := true }
    | none =>
      match st.currentField with
      | some cf =>
        { st with
          currentField := some
            { cf with points := newPoints,
                      area := calculateArea polygonArea newPoints,
                      perimeter := (calculatePerimeter dist newPoints).totalDistance,
                      measurements := (calculatePerimeter dist newPoints).lineMeasurements },
          shouldSaveToHistory := true }
      | none => st

/-- `handleMidpointDrag` of MapComponent.tsx (lines 331-365): splice the new
point into the target's point list directly after `index` — without
recomputing area, perimeter or measurements. -/
def handleMidpointDragMC (st : MapState) (index : Nat) (newPoint : PolygonPoint)
    (fieldId : Option String) : MapState :=
  let pointsOpt :=
    match fieldId with
    | some fid => (st.fields.find? (fun f : Field => f.id == fid)).map Field.points
    | none => st.currentField.map Field.points
  match pointsOpt with
  | none => st
  | some _ =>
    match fieldId with
    | some fid =>
      { st with
        fields := st.fields.map fun f =>
          if f.id = fid then { f with points := f.points.insertIdx (index + 1) newPoint }
          else f }
    | none =>
      match st.currentField with
      | some cf =>
        { st with
          currentField := some
            { cf with points := cf.points.insertIdx (index + 1) newPoint } }
      | none => st

/-- `handleMovementEnd` of useMapLogic V2 (lines 962-973): the drag-end
commit — clears the drag refs, `isMovingPoint` and the selected point.  It
does not touch the committed store (V2's drag handler already wrote it). -/
def handleMovementEndV2 (st : MapState) : MapState :=
  { st with isMovingPoint := false, selectedPoint := none }

/-! ## Concrete demo values (used by closed theorems and witnesses) -/

/-- A committed field with three points (id "1"), measurements in sync. -/
def demoField : Field :=
  ⟨"1", [⟨0, 0⟩, ⟨0, 2⟩, ⟨2, 2⟩], 0, 8, [⟨2, 0⟩, ⟨2, 0⟩, ⟨4, 0⟩]⟩

/-- A state holding `demoField` committed, mid-drag on its vertex 0. -/
def dragDemoState : MapState :=
  ⟨false, [demoField], none, demoField.points, some 0, some "1", none,
   true, true, [⟨[demoField], none⟩], 0, false, some [demoField]⟩

/-- A state with two history entries, cursor at the tip, in sync. -/
def historyDemoState : MapState :=
  ⟨false, [demoField], none, [], none, none, none,
   false, false, [⟨[], none⟩, ⟨[demoField], none⟩], 1, true, some [demoField]⟩

end FieldMap

namespace FieldMap

/-! ## Theorems: Measurement Engine -/

/-- C6: `calculateArea` returns exactly 0 for fewer than 3 points, and the
provider's `polygonArea` divided by 10000 (hectares) for 3 or more. -/
theorem calculateArea_spec (polygonArea : AreaFn) (pts : List PolygonPoint) :
    (pts.length < 3 → calculateArea polygonArea pts = 0) ∧
    (3 ≤ pts.length → calculateArea polygonArea pts = polygonArea pts / 10000) := by
  constructor
  · intro h
    simp [calculateArea, h]
  · intro h
    simp [calculateArea, Nat.not_lt.mpr h]

/-- Witness for C6 at concrete inputs: two points give area 0, a triangle
gives the provider's value over 10000. -/
theorem calculateArea_spec_witness :
    (([⟨0, 0⟩, ⟨0, 1⟩] : List PolygonPoint).length < 3 ∧
      calculateArea (fun _ => 7) [⟨0, 0⟩, ⟨0, 1⟩] = 0) ∧
    (3 ≤ ([⟨0, 0⟩, ⟨0, 1⟩, ⟨1, 1⟩] : List PolygonPoint).length ∧
      calculateArea (fun _ => 7) [⟨0, 0⟩, ⟨0, 1⟩, ⟨1, 1⟩] = 7 / 10000) :=
  ⟨⟨by decide, (calculateArea_spec (fun _ => 7) [⟨0, 0⟩, ⟨0, 1⟩]).1 (by decide)⟩,
   ⟨by decide, (calculateArea_spec (fun _ => 7) [⟨0, 0⟩, ⟨0, 1⟩, ⟨1, 1⟩]).2 (by decide)⟩⟩

theorem map_mk_map_length (l : List ℚ) :
    (l.map fun d => (⟨d, 0⟩ : Measurement)).map Measurement.length = l := by
  induction l with
  | nil => rfl
  | cons a t ih => simp [ih]

theorem calculatePerimeter_length (dist : Dist) (pts : List PolygonPoint)
    (h : 2 ≤ pts.length) :
    (calculatePerimeter dist pts).lineMeasurements.length = pts.length := by
  simp [calculatePerimeter, Nat.not_lt.mpr h]

/-- C5: `calculatePerimeter` returns `(0, [])` for fewer than 2 points; for
`n ≥ 2` points it returns exactly one measurement per edge
`(points[i], points[(i+1) mod n])`, record `i` carrying the provider distance
of that edge (and width 0), with the total equal to the sum of the per-edge
distances. -/
theorem calculatePerimeter_spec (dist : Dist) (pts : List PolygonPoint) :
    (pts.length < 2 → calculatePerimeter dist pts = ⟨0, []⟩) ∧
    (2 ≤ pts.length →
      (calculatePerimeter dist pts).lineMeasurements.length = pts.length ∧
      (∀ i, i < pts.length →
        (calculatePerimeter dist pts).lineMeasurements.getD i default =
          ⟨dist (pts.getD i default) (pts.getD ((i + 1) % pts.length) default), 0⟩) ∧
      (calculatePerimeter dist pts).totalDistance =
        ((calculatePerimeter dist pts).lineMeasurements.map Measurement.length).sum) := by
  constructor
  · intro h
    simp [calculatePerimeter, h]
  · intro h
    have hnot : ¬ pts.length < 2 := Nat.not_lt.mpr h
    refine ⟨?_, ?_, ?_⟩
    · simp [calculatePerimeter, hnot]
    · intro i hi
      simp only [calculatePerimeter, hnot, if_false]
      rw [List.getD_eq_getElem?_getD]
      rw [List.getElem?_map, List.getElem?_map, List.getElem?_range hi]
      rfl
    · simp only [calculatePerimeter, hnot, if_false]
      rw [map_mk_map_length]

/-- Witness for C5: a singleton point list gives `(0, [])`; a 3-point list
gives 3 measurement records with the right per-edge taxicab values and
total. -/
theorem calculatePerimeter_spec_witness :
    (([⟨0, 0⟩] : List PolygonPoint).length < 2 ∧
      calculatePerimeter taxicab [⟨0, 0⟩] = ⟨0, []⟩) ∧
    (2 ≤ ([⟨0, 0⟩, ⟨0, 1⟩, ⟨1, 1⟩] : List PolygonPoint).length ∧
      (calculatePerimeter taxicab [⟨0, 0⟩, ⟨0, 1⟩, ⟨1, 1⟩]).lineMeasurements.length = 3 ∧
      (calculatePerimeter taxicab
        [⟨0, 0⟩, ⟨0, 1⟩, ⟨1, 1⟩]).lineMeasurements.getD 1 default = ⟨1, 0⟩) := by
  refine ⟨⟨by decide, (calculatePerimeter_spec taxicab [⟨0, 0⟩]).1 (by decide)⟩, by decide,
    ((calculatePerimeter_spec taxicab [⟨0, 0⟩, ⟨0, 1⟩, ⟨1, 1⟩]).2 (by decide)).1, ?_⟩
  have h := (((calculatePerimeter_spec taxicab
    [⟨0, 0⟩, ⟨0, 1⟩, ⟨1, 1⟩]).2 (by decide)).2).1 1 (by decide)
  rw [h]
  norm_num [taxicab, qabs]

/-! ## Theorems: adjustLineLength -/

theorem qabs_eq_abs (q : ℚ) : qabs q = |q| := by
  unfold qabs
  rcases lt_or_le q 0 with h | h
  · rw [if_pos h, abs_of_neg h]
  · rw [if_neg (not_lt.mpr h), abs_of_nonneg h]

theorem taxicab_posHom : PosHomogeneous taxicab := by
  intro p dlat dlng t ht
  simp only [taxicab, qabs_eq_abs, add_sub_cancel_left]
  rw [abs_mul, abs_mul, abs_of_nonneg ht, mul_add]

/-- C8: with a positively homogeneous distance provider, a nonzero current
edge length and a positive target length `L`, `adjustLineLength` produces a
point list in which edge `i` re-measures to exactly `L`, and every entry
other than the edge's second endpoint `(i+1) mod n` is unchanged. -/
theorem adjustLineLength_spec (dist : Dist) (hdist : PosHomogeneous dist)
    (pts : List PolygonPoint) (i : Nat) (L : ℚ)
    (h2 : 2 ≤ pts.length) (hi : i < pts.length) (hL : 0 < L)
    (hcur : 0 < dist (pts.getD i default) (pts.getD ((i + 1) % pts.length) default)) :
    dist ((adjustLineLength dist pts i L).getD i default)
        ((adjustLineLength dist pts i L).getD ((i + 1) % pts.length) default) = L ∧
    (adjustLineLength dist pts i L).length = pts.length ∧
    ∀ j, j ≠ (i + 1) % pts.length →
      (adjustLineLength dist pts i L).getD j default = pts.getD j default := by
  have hn : 0 < pts.length := by omega
  set k := (i + 1) % pts.length with hk
  have hklt : k < pts.length := Nat.mod_lt _ hn
  have hik : i ≠ k := by
    rcases Nat.lt_or_ge (i + 1) pts.length with h | h
    · rw [hk, Nat.mod_eq_of_lt h]; omega
    · have hip : i + 1 = pts.length := by omega
      rw [hk, hip, Nat.mod_self]; omega
  set p1 := pts.getD i default with hp1
  set p2 := pts.getD k default with hp2
  have hfr : ∀ j, j ≠ k →
      (adjustLineLength dist pts i L).getD j default = pts.getD j default := by
    intro j hj
    simp only [adjustLineLength, ← hk, ← hp1, ← hp2]
    rw [List.getD_eq_getElem?_getD, List.getD_eq_getElem?_getD,
      List.getElem?_set_ne (by omega)]
  have hlen : (adjustLineLength dist pts i L).length = pts.length := by
    simp [adjustLineLength]
  refine ⟨?_, hlen, hfr⟩
  have hgi : (adjustLineLength dist pts i L).getD i default = p1 := hfr i hik
  have hgk : (adjustLineLength dist pts i L).getD k default =
      ⟨p1.lat + (p2.lat - p1.lat) * (L / dist p1 p2),
       p1.lng + (p2.lng - p1.lng) * (L / dist p1 p2)⟩ := by
    simp only [adjustLineLength, ← hk, ← hp1, ← hp2]
    rw [List.getD_eq_getElem?_getD, List.getElem?_set_self hklt]
    rfl
  rw [hgi, hgk]
  have hscale : 0 ≤ L / dist p1 p2 := le_of_lt (div_pos hL hcur)
  have hhom := hdist p1 (p2.lat - p1.lat) (p2.lng - p1.lng) (L / dist p1 p2) hscale
  have hp2eq : (⟨p1.lat + (p2.lat - p1.lat), p1.lng + (p2.lng - p1.lng)⟩ : PolygonPoint)
      = p2 := by
    cases p2; simp
  rw [mul_comm (p2.lat - p1.lat), mul_comm (p2.lng - p1.lng), hhom, hp2eq,
    div_mul_cancel₀ _ (ne_of_gt hcur)]

/-- Witness for C8: on the taxicab provider and the triangle
`[(0,0), (0,1), (1,1)]`, requesting length 5 for edge 0 moves only endpoint 1
and the edge re-measures to 5. -/
theorem adjustLineLength_spec_witness :
    PosHomogeneous taxicab ∧
    (0 < (5 : ℚ) ∧
      0 < taxicab (([⟨0, 0⟩, ⟨0, 1⟩, ⟨1, 1⟩] : List PolygonPoint).getD 0 default)
        (([⟨0, 0⟩, ⟨0, 1⟩, ⟨1, 1⟩] : List PolygonPoint).getD
          ((0 + 1) % ([⟨0, 0⟩, ⟨0, 1⟩, ⟨1, 1⟩] : List PolygonPoint).length) default)) ∧
    (taxicab ((adjustLineLength taxicab [⟨0, 0⟩, ⟨0, 1⟩, ⟨1, 1⟩] 0 5).getD 0 default)
        ((adjustLineLength taxicab [⟨0, 0⟩, ⟨0, 1⟩, ⟨1, 1⟩] 0 5).getD
          ((0 + 1) % ([⟨0, 0⟩, ⟨0, 1⟩, ⟨1, 1⟩] : List PolygonPoint).length) default) = 5 ∧
      (adjustLineLength taxicab [⟨0, 0⟩, ⟨0, 1⟩, ⟨1, 1⟩] 0 5).length = 3 ∧
      ∀ j, j ≠ (0 + 1) % ([⟨0, 0⟩, ⟨0, 1⟩, ⟨1, 1⟩] : List PolygonPoint).length →
        (adjustLineLength taxicab [⟨0, 0⟩, ⟨0, 1⟩, ⟨1, 1⟩] 0 5).getD j default =
          ([⟨0, 0⟩, ⟨0, 1⟩, ⟨1, 1⟩] : List PolygonPoint).getD j default) :=
  have hc : 0 < taxicab (([⟨0, 0⟩, ⟨0, 1⟩, ⟨1, 1⟩] : List PolygonPoint).getD 0 default)
      (([⟨0, 0⟩, ⟨0, 1⟩, ⟨1, 1⟩] : List PolygonPoint).getD
        ((0 + 1) % ([⟨0, 0⟩, ⟨0, 1⟩, ⟨1, 1⟩] : List PolygonPoint).length) default) := by
    norm_num [taxicab, qabs]
  ⟨taxicab_posHom, ⟨by norm_num, hc⟩,
    adjustLineLength_spec taxicab taxicab_posHom [⟨0, 0⟩, ⟨0, 1⟩, ⟨1, 1⟩] 0 5
      (by decide) (by decide) (by norm_num) hc⟩

/-- C3 fails on the code: `adjustLineLength` has no zero-length guard.  On
the two coinciding points `(0,0), (0,0)` (current edge length exactly 0) and
requested length 100, the computed scale is `100 / 0 = +Infinity`, the
displacement `0 * Infinity` is NaN, and the returned list differs from the
input — its second point is `(NaN, NaN)` — instead of being returned
unchanged. -/
theorem adjustLineLength_zero_edge_nan :
    taxicabFP ⟨.fin 0, .fin 0⟩ ⟨.fin 0, .fin 0⟩ = .fin 0 ∧
    adjustLineLengthFP taxicabFP [⟨.fin 0, .fin 0⟩, ⟨.fin 0, .fin 0⟩] 0 (.fin 100) =
      [⟨.fin 0, .fin 0⟩, ⟨.nan, .nan⟩] ∧
    adjustLineLengthFP taxicabFP [⟨.fin 0, .fin 0⟩, ⟨.fin 0, .fin 0⟩] 0 (.fin 100) ≠
      [⟨.fin 0, .fin 0⟩, ⟨.fin 0, .fin 0⟩] := by
  have e0 : taxicabFP ⟨.fin 0, .fin 0⟩ ⟨.fin 0, .fin 0⟩ = .fin 0 := by
    simp [taxicabFP, FP.sub, FP.neg, FP.add, FP.abs, qabs]
  have e2 : adjustLineLengthFP taxicabFP [⟨.fin 0, .fin 0⟩, ⟨.fin 0, .fin 0⟩] 0 (.fin 100) =
      [⟨.fin 0, .fin 0⟩, ⟨.nan, .nan⟩] := by
    simp only [adjustLineLengthFP]
    norm_num [e0, FP.div, FP.mul, FP.add, FP.sub, FP.neg]
  refine ⟨e0, e2, ?_⟩
  rw [e2]
  decide

/-! ## Theorems: Field Store and Edit Session -/

/-- C10: `clearSavedFields` empties the committed fields collection and
removes the persisted storage key, while leaving the current field slot and
the drawing-mode flag untouched. -/
theorem clearSavedFields_spec (st : MapState) :
    (clearSavedFields st).fields = [] ∧
    (clearSavedFields st).storage = none ∧
    (clearSavedFields st).currentField = st.currentField ∧
    (clearSavedFields st).isDrawing = st.isDrawing :=
  ⟨rfl, rfl, rfl, rfl⟩

/-- C1 fails on the code: in the very drag handler the claim cites
(useMapLogic V1, lines 319-360), a single `handleMarkerDrag` during an active
move (`isMovingRef` set, commit not yet called) rewrites the committed
`fields` collection: vertex 0 of committed field "1" moves from `(0,0)` to
`(5,5)` in the store itself, not only in the `tempPoints` draft. -/
theorem drag_mutates_committed_store :
    (handleMarkerDragV1 dragDemoState 0 ⟨5, 5⟩ (some "1")).fields ≠ dragDemoState.fields ∧
    (handleMarkerDragV1 dragDemoState 0 ⟨5, 5⟩ (some "1")).fields =
      [⟨"1", [⟨5, 5⟩, ⟨0, 2⟩, ⟨2, 2⟩], 0, 8, [⟨2, 0⟩, ⟨2, 0⟩, ⟨4, 0⟩]⟩] ∧
    (handleMarkerDragV1 dragDemoState 0 ⟨5, 5⟩ (some "1")).tempPoints =
      [⟨5, 5⟩, ⟨0, 2⟩, ⟨2, 2⟩] := by
  decide

theorem map_update_id (l : List Field) (fid : String) (upd : Field → Field)
    (h : ∀ f ∈ l, f.id ≠ fid) :
    (l.map fun f => if f.id = fid then upd f else f) = l := by
  induction l with
  | nil => rfl
  | cons g t ih =>
    rw [List.map_cons, if_neg (h g (List.mem_cons_self g t)),
      ih fun f hf => h f (List.mem_cons_of_mem g hf)]

/-- C9: a drag whose target field id is no longer present in the committed
collection leaves the committed collection unchanged (silent no-op), in both
drag handlers the claim's sources trace (V1's explicit `find?`-miss early
return and V2's identity `map`). -/
theorem drag_missing_field_noop (st : MapState) (i : Nat) (p : PolygonPoint)
    (dist : Dist) (polygonArea : AreaFn) (fid : String)
    (habs : ∀ f ∈ st.fields, f.id ≠ fid) :
    (handleMarkerDragV1 st i p (some fid)).fields = st.fields ∧
    (handleMarkerDragV2 dist polygonArea st i p (some fid)).fields = st.fields := by
  have hfind : (st.fields.find? fun f => f.id == fid) = none := by
    rw [List.find?_eq_none]
    intro f hf
    simpa using habs f hf
  constructor
  · by_cases hm : st.isMovingRef
    · simp [handleMarkerDragV1, hm, hfind]
    · simp [handleMarkerDragV1, hm]
  · simp [handleMarkerDragV2, map_update_id st.fields fid _ habs]

/-- Witness for C9: dragging with target id "2" while only field "1" is
committed leaves the committed collection unchanged in both handlers. -/
theorem drag_missing_field_noop_witness :
    (∀ f ∈ dragDemoState.fields, f.id ≠ "2") ∧
    (handleMarkerDragV1 dragDemoState 0 ⟨5, 5⟩ (some "2")).fields = dragDemoState.fields ∧
    (handleMarkerDragV2 taxicab (fun _ => 0) dragDemoState 0 ⟨5, 5⟩
      (some "2")).fields = dragDemoState.fields :=
  ⟨by decide, drag_missing_field_noop dragDemoState 0 ⟨5, 5⟩ taxicab (fun _ => 0) "2"
    (by decide)⟩

/-! ## Theorems: History Manager -/

/-- C4: for a history state whose cursor points at the snapshot of the
current `(fields, currentField)` (the invariant the save effect maintains):
`undo` right after a pending snapshot is saved restores exactly the
pre-snapshot fields and current field; `redo` right after an effective `undo`
restores the pre-undo fields and current field; `undo` at cursor 0 changes
nothing; `redo` with the cursor at the last entry changes nothing. -/
theorem undo_redo_spec (st : MapState)
    (hsync : st.history[st.historyIndex]? = some ⟨st.fields, st.currentField⟩) :
    (st.shouldSaveToHistory = true →
      (undo (saveToHistory st)).fields = st.fields ∧
      (undo (saveToHistory st)).currentField = st.currentField) ∧
    (0 < st.historyIndex →
      (redo (undo st)).fields = st.fields ∧
      (redo (undo st)).currentField = st.currentField) ∧
    (st.historyIndex = 0 → undo st = st) ∧
    (st.historyIndex + 1 = st.history.length → redo st = st) := by
  have hlt : st.historyIndex < st.history.length := by
    rcases List.getElem?_eq_some.mp hsync with ⟨h1, _⟩
    exact h1
  refine ⟨?_, ?_, ?_, ?_⟩
  · intro h
    have hsave : saveToHistory st =
        { st with
          history := st.history.take (st.historyIndex + 1) ++
            [⟨st.fields, st.currentField⟩],
          historyIndex := st.historyIndex + 1,
          shouldSaveToHistory := false } := by
      simp [saveToHistory, h]
    have hgd : (st.history.take (st.historyIndex + 1) ++
        [(⟨st.fields, st.currentField⟩ : HistoryState)]).getD st.historyIndex default =
        ⟨st.fields, st.currentField⟩ := by
      rw [List.getD_eq_getElem?_getD, List.getElem?_append,
        if_pos (by rw [List.length_take]; omega)]
      rw [List.getElem?_take, if_pos (Nat.lt_succ_self _), hsync]
      rfl
    rw [hsave]
    simp only [undo, Nat.succ_pos, if_pos, Nat.add_sub_cancel]
    rw [hgd]
    exact ⟨rfl, rfl⟩
  · intro h
    have hundo : undo st =
        { st with
          fields := (st.history.getD (st.historyIndex - 1) default).fields,
          currentField := (st.history.getD (st.historyIndex - 1) default).currentField,
          historyIndex := st.historyIndex - 1,
          shouldSaveToHistory := false,
          tempPoints := [], selectedPoint := none, selectedFieldId := none,
          isMovingPoint := false, hoveredPoint := none } := by
      simp [undo, h]
    have hidx : st.historyIndex - 1 + 1 = st.historyIndex := by omega
    rw [hundo]
    simp only [redo]
    rw [if_pos (by simpa [hidx] using hlt)]
    simp only [hidx]
    rw [List.getD_eq_getElem?_getD, hsync]
    exact ⟨rfl, rfl⟩
  · intro h
    simp [undo, h]
  · intro h
    simp [redo, h]

/-- Witness for C4 on a concrete two-entry history with the cursor at the
tip: all four behaviors at `historyDemoState`. -/
theorem undo_redo_spec_witness :
    (historyDemoState.history[historyDemoState.historyIndex]? =
      some ⟨historyDemoState.fields, historyDemoState.currentField⟩) ∧
    ((historyDemoState.shouldSaveToHistory = true →
      (undo (saveToHistory historyDemoState)).fields = historyDemoState.fields ∧
      (undo (saveToHistory historyDemoState)).currentField =
        historyDemoState.currentField) ∧
    (0 < historyDemoState.historyIndex →
      (redo (undo historyDemoState)).fields = historyDemoState.fields ∧
      (redo (undo historyDemoState)).currentField = historyDemoState.currentField) ∧
    (historyDemoState.historyIndex = 0 → undo historyDemoState = historyDemoState) ∧
    (historyDemoState.historyIndex + 1 = historyDemoState.history.length →
      redo historyDemoState = historyDemoState)) :=
  ⟨by decide, undo_redo_spec historyDemoState (by decide)⟩

/-! ## Theorems: midpoint insertion and the measurements invariant -/

theorem insertIdx_take_drop {α : Type} (l : List α) (n : Nat) (a : α)
    (h : n ≤ l.length) :
    l.insertIdx n a = l.take n ++ a :: l.drop n := by
  induction l generalizing n with
  | nil =>
    simp only [List.length_nil, Nat.le_zero] at h
    subst h
    simp
  | cons b t ih =>
    cases n with
    | zero => simp
    | succ n =>
      simp only [List.insertIdx_succ_cons, List.take_succ_cons, List.drop_succ_cons,
        List.cons_append]
      rw [ih n (by simpa using h)]

theorem find?_map_update (l : List Field) (fid : String) (upd : Field → Field)
    (hid : ∀ g, (upd g).id = g.id) (f : Field)
    (h : (l.find? fun g => g.id == fid) = some f) :
    ((l.map fun g => if g.id = fid then upd g else g).find? fun g => g.id == fid)
      = some (upd f) := by
  induction l with
  | nil => simp at h
  | cons g t ih =>
    by_cases hg : g.id = fid
    · rw [List.find?_cons_of_pos _ (by simpa using hg)] at h
      injection h with h
      subst h
      rw [List.map_cons, if_pos hg,
        List.find?_cons_of_pos _ (by simp [hid, hg])]
    · rw [List.find?_cons_of_neg _ (by simpa using hg)] at h
      rw [List.map_cons, if_neg hg,
        List.find?_cons_of_neg _ (by simpa using hg)]
      exact ih h

theorem handleMidpointDragL_found (dist : Dist) (polygonArea : AreaFn)
    (st : MapState) (fid : String) (f : Field)
    (hfind : (st.fields.find? fun g => g.id == fid) = some f)
    (i : Nat) (m : PolygonPoint) :
    (handleMidpointDragL dist polygonArea st i m (some fid)).fields =
      st.fields.map fun g =>
        if g.id = fid then
          { g with points := f.points.insertIdx (i + 1) m,
                   area := calculateArea polygonArea (f.points.insertIdx (i + 1) m),
                   perimeter := (calculatePerimeter dist
                     (f.points.insertIdx (i + 1) m)).totalDistance,
                   measurements := (calculatePerimeter dist
                     (f.points.insertIdx (i + 1) m)).lineMeasurements }
        else g := by
  simp [handleMidpointDragL, hfind]

/-- C7: `insertAtMidpoint(i, m)` (useMapLogic V2's `handleMidpointDrag` on a
committed field) followed immediately by the drag-end commit yields a
committed point list for that field of length `n + 1`, whose element at
position `i + 1` is exactly `m` and whose remaining elements are the original
points in order. -/
theorem insertAtMidpoint_commit_spec (dist : Dist) (polygonArea : AreaFn)
    (st : MapState) (fid : String) (f : Field)
    (hfind : (st.fields.find? fun g => g.id == fid) = some f)
    (i : Nat) (hi : i < f.points.length) (m : PolygonPoint) :
    ∃ g, ((handleMovementEndV2 (handleMidpointDragL dist polygonArea st i m
        (some fid))).fields.find? fun x => x.id == fid) = some g ∧
      g.points = f.points.take (i + 1) ++ m :: f.points.drop (i + 1) ∧
      g.points.length = f.points.length + 1 ∧
      g.points[i + 1]? = some m := by
  have hle : i + 1 ≤ f.points.length := hi
  have hins : f.points.insertIdx (i + 1) m =
      f.points.take (i + 1) ++ m :: f.points.drop (i + 1) :=
    insertIdx_take_drop _ _ _ hle
  have htl : (f.points.take (i + 1)).length = i + 1 := by
    rw [List.length_take]; omega
  refine ⟨{ f with
      points := f.points.insertIdx (i + 1) m,
      area := calculateArea polygonArea (f.points.insertIdx (i + 1) m),
      perimeter := (calculatePerimeter dist (f.points.insertIdx (i + 1) m)).totalDistance,
      measurements := (calculatePerimeter dist
        (f.points.insertIdx (i + 1) m)).lineMeasurements }, ?_, ?_, ?_, ?_⟩
  · show ((handleMovementEndV2 _).fields.find? fun x => x.id == fid) = _
    simp only [handleMovementEndV2]
    rw [handleMidpointDragL_found dist polygonArea st fid f hfind i m]
    exact find?_map_update st.fields fid (fun g => { g with
        points := f.points.insertIdx (i + 1) m,
        area := calculateArea polygonArea (f.points.insertIdx (i + 1) m),
        perimeter := (calculatePerimeter dist (f.points.insertIdx (i + 1) m)).totalDistance,
        measurements := (calculatePerimeter dist
          (f.points.insertIdx (i + 1) m)).lineMeasurements }) (fun g => rfl) f hfind
  · exact hins
  · rw [hins]
    simp only [List.length_append, List.length_cons, List.length_drop, htl]
    omega
  · rw [hins, List.getElem?_append, htl, if_neg (lt_irrefl _), Nat.sub_self]
    simp

/-- Witness for C7: inserting `(9,9)` after edge 1 of the committed 3-point
field "1" and committing gives the 4-point list with `(9,9)` at position 2. -/
theorem insertAtMidpoint_commit_spec_witness :
    ((dragDemoState.fields.find? fun g => g.id == "1") = some demoField) ∧
    1 < demoField.points.length ∧
    ∃ g, ((handleMovementEndV2 (handleMidpointDragL taxicab (fun _ => 0)
        dragDemoState 1 ⟨9, 9⟩ (some "1"))).fields.find? fun x => x.id == "1") = some g ∧
      g.points = demoField.points.take 2 ++ ⟨9, 9⟩ :: demoField.points.drop 2 ∧
      g.points.length = demoField.points.length + 1 ∧
      g.points[2]? = some (⟨9, 9⟩ : PolygonPoint) :=
  ⟨by decide, by decide,
    insertAtMidpoint_commit_spec taxicab (fun _ => 0) dragDemoState "1" demoField
      (by decide) 1 (by decide) ⟨9, 9⟩⟩

/-- C2 fails on the code: the midpoint-insert path the claim itself cites
(MapComponent.tsx `handleMidpointDrag`, lines 331-365) splices a point into a
committed field without recomputing its measurements, so from a state
satisfying `len(measurements) = len(points) = 3` one midpoint insert reaches
a state with 4 points but still 3 measurements — the invariant does not hold
at every reachable state with `len(points) ≥ 2`. -/
theorem measurements_length_counterexample :
    (dragDemoState.fields.getD 0 default).points.length = 3 ∧
    (dragDemoState.fields.getD 0 default).measurements.length = 3 ∧
    ((handleMidpointDragMC dragDemoState 0 ⟨0, 1⟩ (some "1")).fields.getD 0
        default).points.length = 4 ∧
    ((handleMidpointDragMC dragDemoState 0 ⟨0, 1⟩ (some "1")).fields.getD 0
        default).measurements.length = 3 := by
  decide

/-- C2 amended: `len(measurements) = len(points)` is what every measurement
recomputation establishes — `calculatePerimeter` emits exactly one record per
point whenever `len(points) ≥ 2` — and the operations that recompute (such as
useMapLogic V2's `handleMidpointDrag`) preserve the equality on their target
field; but operations that skip the recompute (the cited MapComponent
midpoint insert, point append) can leave it broken until the next recompute,
which only covers the current field with at least 3 points. -/
theorem measurements_length_spec (dist : Dist) (polygonArea : AreaFn)
    (pts : List PolygonPoint) (st : MapState) (fid : String) (f : Field)
    (hfind : (st.fields.find? fun g => g.id == fid) = some f)
    (i : Nat) (hi : i < f.points.length) (m : PolygonPoint) :
    (2 ≤ pts.length →
      (calculatePerimeter dist pts).lineMeasurements.length = pts.length) ∧
    ∃ g, ((handleMidpointDragL dist polygonArea st i m (some fid)).fields.find?
        fun x => x.id == fid) = some g ∧
      g.measurements.length = g.points.length ∧
      2 ≤ g.points.length := by
  refine ⟨calculatePerimeter_length dist pts, ?_⟩
  have hle : i + 1 ≤ f.points.length := hi
  have hlen : (f.points.insertIdx (i + 1) m).length = f.points.length + 1 := by
    rw [insertIdx_take_drop _ _ _ hle]
    simp only [List.length_append, List.length_cons, List.length_drop, List.length_take]
    omega
  refine ⟨{ f with
      points := f.points.insertIdx (i + 1) m,
      area := calculateArea polygonArea (f.points.insertIdx (i + 1) m),
      perimeter := (calculatePerimeter dist (f.points.insertIdx (i + 1) m)).totalDistance,
      measurements := (calculatePerimeter dist
        (f.points.insertIdx (i + 1) m)).lineMeasurements }, ?_, ?_, ?_⟩
  · rw [handleMidpointDragL_found dist polygonArea st fid f hfind i m]
    exact find?_map_update st.fields fid (fun g => { g with
        points := f.points.insertIdx (i + 1) m,
        area := calculateArea polygonArea (f.points.insertIdx (i + 1) m),
        perimeter := (calculatePerimeter dist (f.points.insertIdx (i + 1) m)).totalDistance,
        measurements := (calculatePerimeter dist
          (f.points.insertIdx (i + 1) m)).lineMeasurements }) (fun g => rfl) f hfind
  · show (calculatePerimeter dist (f.points.insertIdx (i + 1) m)).lineMeasurements.length
      = (f.points.insertIdx (i + 1) m).length
    exact calculatePerimeter_length dist _ (by omega)
  · show 2 ≤ (f.points.insertIdx (i + 1) m).length
    omega

/-- Witness for C2's amended statement at a concrete recomputing midpoint
insert on the committed field "1". -/
theorem measurements_length_spec_witness :
    ((dragDemoState.fields.find? fun g => g.id == "1") = some demoField) ∧
    0 < demoField.points.length ∧
    ((2 ≤ ([⟨0, 0⟩, ⟨0, 1⟩] : List PolygonPoint).length →
      (calculatePerimeter taxicab [⟨0, 0⟩, ⟨0, 1⟩]).lineMeasurements.length =
        ([⟨0, 0⟩, ⟨0, 1⟩] : List PolygonPoint).length) ∧
    ∃ g, ((handleMidpointDragL taxicab (fun _ => 0) dragDemoState 0 ⟨0, 1⟩
        (some "1")).fields.find? fun x => x.id == "1") = some g ∧
      g.measurements.length = g.points.length ∧
      2 ≤ g.points.length) :=
  ⟨by decide, by decide,
    measurements_length_spec taxicab (fun _ => 0) [⟨0, 0⟩, ⟨0, 1⟩] dragDemoState "1"
      demoField (by decide) 0 (by decide) ⟨0, 1⟩⟩

end FieldMap
